import Mathlib

/-!
# CityAccess — verification of the ingestion pipeline and proximity queries

Shallow embedding of the repository's Python sources:

* `src/api/sync_hospitals.py` — `fetch_facilities` (Overpass mirror loop +
  normalization into feature dicts) and `upsert_facilities` (per-record SQL
  upsert with `ON CONFLICT (name, city, facility_type) DO UPDATE`).
* `src/api/fetch_hospitals.py` — hospital-only fetch script (mirror loop,
  normalization into GeoJSON features, placeholder name "Unknown hospital").
* `src/api/app/main.py` — query endpoints `/hospitals/nearest` (LIMIT 10)
  and `/facilities/nearest` (LIMIT 20, optional `facility_type` filter).

Numbers are modelled with `ℚ` (the Python floats only flow through
unchanged; no float arithmetic is performed by the code under scrutiny).
The PostGIS geography distance `ST_Distance(a::geography, b::geography)`
is computed by the database, outside this repository, so queries take the
distance function as an explicit parameter `gd`; `ST_DWithin(a, b, d)`
holds exactly when the geography distance is `≤ d` (PostGIS semantics,
boundary inclusive).
-/

namespace CityAccess

/-- A raw Overpass element: optional coordinates (`"lat" in element` is
`lat.isSome`) and the tag dictionary, modelled as an association list. -/
structure Element where
  lat : Option ℚ
  lon : Option ℚ
  tags : List (String × String)
deriving DecidableEq

/-- `tags.get(k)` — `None` when the key is absent. -/
def tagsGet (tags : List (String × String)) (k : String) : Option String :=
  (tags.find? (fun p => p.1 == k)).map (fun p => p.2)

/-- `tags.get(k, d)` — the stored value when the key is present, else `d`. -/
def tagsGetD (tags : List (String × String)) (k d : String) : String :=
  (tagsGet tags k).getD d

/-- The feature dict built by `fetch_facilities` in `sync_hospitals.py`
(lines 56–71).  Every key is always present; optional tag values are the
stored `None`/string.  `name` is always a string because the code supplies
the default `"Unknown facility"`. -/
structure Feature where
  name : String
  street : Option String
  housenumber : Option String
  postcode : Option String
  city : Option String
  phone : Option String
  website : Option String
  operator : Option String
  emergency : Option String
  capacity : Option String
  facility_type : Option String
  source : String
  lon : ℚ
  lat : ℚ
deriving DecidableEq

/-- One iteration of the feature-building loop of `fetch_facilities`:
an element is kept only when both `"lat" in element` and `"lon" in element`. -/
def normalizeElement (e : Element) : Option Feature :=
  match e.lat, e.lon with
  | some la, some lo =>
    some
      { name := tagsGetD e.tags "name" "Unknown facility"
        street := tagsGet e.tags "addr:street"
        housenumber := tagsGet e.tags "addr:housenumber"
        postcode := tagsGet e.tags "addr:postcode"
        city := tagsGet e.tags "addr:city"
        phone := tagsGet e.tags "phone"
        website := tagsGet e.tags "website"
        operator := tagsGet e.tags "operator"
        emergency := tagsGet e.tags "emergency"
        capacity := tagsGet e.tags "capacity"
        facility_type := tagsGet e.tags "amenity"
        source := "OSM"
        lon := lo
        lat := la }
  | _, _ => none

/-- The full feature list prepared by `fetch_facilities` from the raw
elements of the successful mirror's response. -/
def fetchFeatures (elements : List Element) : List Feature :=
  elements.filterMap normalizeElement

/-- Python string interpolation of a value that may be `None`:
`f"{x}"` renders `None` as the text `"None"`. -/
def pyFormatOpt : Option String → String
  | none => "None"
  | some s => s

/-- Python `str.strip()`: drop whitespace from both ends. -/
def pyStrip (s : String) : String :=
  ⟨(((s.data.dropWhile Char.isWhitespace).reverse).dropWhile
      Char.isWhitespace).reverse⟩

/-- The address argument of the upsert
(`f"{props.get('street','')} {props.get('housenumber','')}".strip()`).
The feature dict always carries the keys `street` and `housenumber`
(possibly with value `None`), so `props.get(k, '')` returns the stored
value and the default `''` never applies; a stored `None` is rendered by
the f-string as the text `"None"`. -/
def addressOf (f : Feature) : String :=
  pyStrip (pyFormatOpt f.street ++ " " ++ pyFormatOpt f.housenumber)

/-- Value of an unsigned decimal digit string. -/
def digitsToNat (cs : List Char) : Nat :=
  cs.foldl (fun n c => n * 10 + (c.toNat - ('0').toNat)) 0

/-- Integer syntax accepted by the Postgres `::int` cast after stripping:
an optional sign followed by at least one digit. -/
def parseIntChars : List Char → Option Int
  | [] => none
  | '+' :: rest =>
    if !rest.isEmpty && rest.all Char.isDigit then some (digitsToNat rest)
    else none
  | '-' :: rest =>
    if !rest.isEmpty && rest.all Char.isDigit then some (-(digitsToNat rest : Int))
    else none
  | cs =>
    if cs.all Char.isDigit then some (digitsToNat cs) else none

/-- The Postgres text-to-integer cast used by `NULLIF($9,'')::int`
(leading/trailing whitespace tolerated, optional sign, else a cast error,
here `none`). -/
def pgTextToInt (s : String) : Option Int :=
  parseIntChars (pyStrip s).data

/-- `NULLIF($9, '')::int`: SQL `NULL` stays `NULL`, the empty string
becomes `NULL`, any other string goes through the integer cast, whose
failure is a database error that aborts the statement. -/
def castCapacity : Option String → Except String (Option Int)
  | none => .ok none
  | some s =>
    if s = "" then .ok none
    else
      match pgTextToInt s with
      | some n => .ok (some n)
      | none => .error ("invalid input syntax for type integer: " ++ s)

instance {ε α : Type} [DecidableEq ε] [DecidableEq α] :
    DecidableEq (Except ε α) := fun a b =>
  match a, b with
  | .ok x, .ok y =>
    if h : x = y then .isTrue (by rw [h]) else .isFalse (by simp [h])
  | .error x, .error y =>
    if h : x = y then .isTrue (by rw [h]) else .isFalse (by simp [h])
  | .ok _, .error _ => .isFalse (by simp)
  | .error _, .ok _ => .isFalse (by simp)

/-- The capacity value actually stored when the cast succeeds. -/
def capValue (f : Feature) : Option Int :=
  match castCapacity f.capacity with
  | .ok v => v
  | .error _ => none

/-- A row of the `health_facilities` table, with the columns named in the
INSERT of `upsert_facilities` plus the serial `id` selected by the query
endpoints.  `geom` is the point `ST_SetSRID(ST_Point(lon, lat), 4326)`,
modelled as the coordinate pair. -/
structure Row where
  id : Nat
  name : Option String
  address : String
  city : Option String
  postcode : Option String
  phone : Option String
  website : Option String
  operator : Option String
  emergency : Option String
  capacity : Option Int
  facility_type : Option String
  source : Option String
  geom : ℚ × ℚ
deriving DecidableEq

/-- Modelled from the spec: the unique index over
`(name, city, facility_type)` that backs `ON CONFLICT` is created outside
this repository's source (no DDL under `src/`); following the spec's
natural-key description, key equality is plain tuple equality on the
three columns (two absent values compare equal). -/
def keyMatchesRow (f : Feature) (r : Row) : Bool :=
  r.name == some f.name && r.city == f.city && r.facility_type == f.facility_type

/-- Whether the store already holds a row with the incoming record's key. -/
def hasKey (s : List Row) (f : Feature) : Bool :=
  s.any (keyMatchesRow f)

/-- The `DO UPDATE SET` list of the conflict clause: address, postcode,
phone, website, operator, emergency, capacity and geom are overwritten
from the incoming record; every other column is untouched. -/
def updateRow (f : Feature) (r : Row) : Row :=
  { r with
    address := addressOf f
    postcode := f.postcode
    phone := f.phone
    website := f.website
    operator := f.operator
    emergency := f.emergency
    capacity := capValue f
    geom := (f.lon, f.lat) }

/-- Per-row effect of one upsert statement: rows whose key conflicts with
the incoming record are updated, all others are untouched. -/
def stepRow (f : Feature) (r : Row) : Row :=
  if keyMatchesRow f r then updateRow f r else r

/-- The row created when no key conflict exists (the INSERT arm). -/
def newRow (nextId : Nat) (f : Feature) : Row :=
  { id := nextId
    name := some f.name
    address := addressOf f
    city := f.city
    postcode := f.postcode
    phone := f.phone
    website := f.website
    operator := f.operator
    emergency := f.emergency
    capacity := capValue f
    facility_type := f.facility_type
    source := some f.source
    geom := (f.lon, f.lat) }

/-- One `INSERT ... ON CONFLICT (name, city, facility_type) DO UPDATE`
statement for a single feature: the capacity cast runs first (its failure
is the statement's error), then either the conflicting row is updated or
a fresh row is appended. -/
def upsertOne (s : List Row) (f : Feature) : Except String (List Row) :=
  match castCapacity f.capacity with
  | .error e => .error e
  | .ok _ =>
    if hasKey s f then .ok (s.map (stepRow f))
    else .ok (s ++ [newRow (s.length + 1) f])

/-- The loop of `upsert_facilities`: statements execute one by one with no
per-record exception handling, so the first failing statement aborts the
loop — rows already upserted stay committed (each statement autocommits),
the failing and all later records are not applied, and the error escapes.
The result is the final store plus the escaped error, if any. -/
def upsertFacilities (s : List Row) : List Feature → List Row × Option String
  | [] => (s, none)
  | f :: rest =>
    match upsertOne s f with
    | .ok s₁ => upsertFacilities s₁ rest
    | .error e => (s, some e)

/-! ## Mirror loop (`fetch_facilities`, `sync_hospitals.py` lines 33–49)

Each mirror attempt either fails (HTTP error, non-success status, bad
JSON, response without usable `elements` — all caught by the `except`
branch) or yields the element list of the JSON body.  The network itself
is outside the program, so the loop is a function of the per-mirror
outcomes, in mirror order. -/

/-- The `for url in OVERPASS_URLS` loop with the trailing failure count:
the first successful attempt wins and the loop `break`s (later mirrors
are never attempted); a failed attempt is logged and the loop advances
to the next mirror (no retry of the same mirror).  When every mirror
fails, `raise RuntimeError("All Overpass servers failed. Try again
later.")`. -/
def runMirrorsAux : List (Option (List Element)) → Nat →
    Except String (List Element × Nat)
  | [], _ => .error "All Overpass servers failed. Try again later."
  | some d :: _, n => .ok (d, n)
  | none :: rest, n => runMirrorsAux rest (n + 1)

/-- Mirror failover: outcome of the whole loop, paired with how many
failures were recorded before the first success. -/
def runMirrors (attempts : List (Option (List Element))) :
    Except String (List Element × Nat) :=
  runMirrorsAux attempts 0

/-- The ingestion entry point `main`: fetch (a raised `RuntimeError`
propagates — hard stop, the store is never touched), then normalize and
upsert the fetched batch. -/
def ingestRun (attempts : List (Option (List Element))) (store : List Row) :
    Except String (List Row × Option String) :=
  match runMirrors attempts with
  | .error e => .error e
  | .ok (elems, _) => .ok (upsertFacilities store (fetchFeatures elems))

/-! ## Hospital-only pipeline (`fetch_hospitals.py`) -/

/-- The GeoJSON feature of `fetch_hospitals.py` (lines 27–48): same tag
defaults except the name placeholder, and a `Point((lon, lat))`
geometry. -/
structure HospitalFeature where
  name : String
  street : Option String
  housenumber : Option String
  postcode : Option String
  city : Option String
  phone : Option String
  website : Option String
  operator : Option String
  emergency : Option String
  capacity : Option String
  source : String
  geometry : ℚ × ℚ
deriving DecidableEq

/-- One iteration of the feature loop of `fetch_hospitals.py`: note the
placeholder `tags.get("name", "Unknown hospital")`. -/
def normalizeHospitalElement (e : Element) : Option HospitalFeature :=
  match e.lat, e.lon with
  | some la, some lo =>
    some
      { name := tagsGetD e.tags "name" "Unknown hospital"
        street := tagsGet e.tags "addr:street"
        housenumber := tagsGet e.tags "addr:housenumber"
        postcode := tagsGet e.tags "addr:postcode"
        city := tagsGet e.tags "addr:city"
        phone := tagsGet e.tags "phone"
        website := tagsGet e.tags "website"
        operator := tagsGet e.tags "operator"
        emergency := tagsGet e.tags "emergency"
        capacity := tagsGet e.tags "capacity"
        source := "OSM"
        geometry := (lo, la) }
  | _, _ => none

/-! ## Proximity queries (`src/api/app/main.py`)

`gd` is the PostGIS geography (ellipsoidal) distance
`ST_Distance(x::geography, y::geography)`, an external computation taken
as a parameter.  `ST_DWithin(x, q, dist)` is `gd x q ≤ dist` (inclusive
boundary).  `ORDER BY distance_m` sorts ascending; `LIMIT n` truncates. -/

/-- Distance of a row's geometry from the query point. -/
def distTo (gd : ℚ × ℚ → ℚ × ℚ → ℚ) (qlon qlat : ℚ) (r : Row) : ℚ :=
  gd r.geom (qlon, qlat)

/-- `GET /hospitals/nearest` (`nearest_hospitals`): rows of the hospitals
table within `dist` meters, ordered by ascending `distance_m`, `LIMIT 10`. -/
def nearestHospitals (gd : ℚ × ℚ → ℚ × ℚ → ℚ) (store : List Row)
    (qlon qlat dist : ℚ) : List Row :=
  ((store.filter (fun r => decide (distTo gd qlon qlat r ≤ dist))).insertionSort
    (fun a b => distTo gd qlon qlat a ≤ distTo gd qlon qlat b)).take 10

/-- `GET /facilities/nearest` (`nearest_facilities`): the Python guard
`if facility_type:` is truthiness — both `None` and the empty string
select the unfiltered query; a non-empty string adds the conjunct
`facility_type = $4` (SQL equality with a non-null parameter: a row whose
column is NULL does not match). `LIMIT 20` in both branches. -/
def nearestFacilities (gd : ℚ × ℚ → ℚ × ℚ → ℚ) (store : List Row)
    (qlon qlat dist : ℚ) (facility_type : Option String) : List Row :=
  match facility_type with
  | some t =>
    if t = "" then
      ((store.filter (fun r => decide (distTo gd qlon qlat r ≤ dist))).insertionSort
        (fun a b => distTo gd qlon qlat a ≤ distTo gd qlon qlat b)).take 20
    else
      ((store.filter (fun r =>
          r.facility_type == some t && decide (distTo gd qlon qlat r ≤ dist))).insertionSort
        (fun a b => distTo gd qlon qlat a ≤ distTo gd qlon qlat b)).take 20
  | none =>
    ((store.filter (fun r => decide (distTo gd qlon qlat r ≤ dist))).insertionSort
      (fun a b => distTo gd qlon qlat a ≤ distTo gd qlon qlat b)).take 20

/-! ## Identity fields

The columns never written by the `DO UPDATE SET` list: the serial `id`,
the three key columns and `source`. -/

/-- Two rows agree on every column outside the conflict clause's update
list (`id`, `name`, `city`, `facility_type`, `source`). -/
def sameIdentity (a b : Row) : Prop :=
  a.id = b.id ∧ a.name = b.name ∧ a.city = b.city ∧
  a.facility_type = b.facility_type ∧ a.source = b.source

/-! ## Concrete fixtures for witnesses and counterexamples -/

/-- A well-formed normalized record (the spec's `Klinik A` scenario). -/
def exFeat : Feature :=
  { name := "Klinik A", street := some "Hauptstr.", housenumber := some "5"
    postcode := some "1010", city := some "Wien", phone := some "+43 1 111"
    website := none, operator := none, emergency := some "yes"
    capacity := some "120", facility_type := some "clinic", source := "OSM"
    lon := 16, lat := 48 }

/-- `exFeat` re-fetched with changed mutable fields, same natural key. -/
def exFeat2 : Feature :=
  { exFeat with phone := some "+43 699 2", capacity := some "300", lon := 17 }

/-- A record with a different natural key. -/
def exFeatB : Feature :=
  { exFeat with
    name := "Praxis B", city := some "Graz"
    facility_type := some "doctors", capacity := none }

/-- A third distinct key, used in batch counterexamples. -/
def exFeatC : Feature :=
  { exFeat with
    name := "Apotheke C", city := some "Linz"
    facility_type := some "pharmacy", capacity := some "" }

/-- A record whose capacity is garbage: the `::int` cast fails. -/
def exCapNA : Feature :=
  { exFeat with
    name := "Ambulanz D", city := some "Linz"
    capacity := some "n/a" }

/-- The row `exFeat` creates in an empty store. -/
def exRow : Row := newRow 1 exFeat

/-- Raw element with coordinates, a name, and no address tags. -/
def elemNoAddr : Element :=
  { lat := some 48, lon := some 16, tags := [("name", "Clinic X")] }

/-- Raw element with a house number but no street. -/
def elemHalfAddr : Element :=
  { lat := some 48, lon := some 16
    tags := [("name", "Clinic Y"), ("addr:housenumber", "12")] }

/-- Raw element with coordinates and no name tag. -/
def elemNoName : Element :=
  { lat := some 47, lon := some 15, tags := [] }

/-- A hospital row at the point `(16, 48)` with id `i`. -/
def mkCexRow (i : Nat) : Row :=
  { id := i
    name := some ("H" ++ toString i)
    address := ""
    city := none
    postcode := none
    phone := none
    website := none
    operator := none
    emergency := none
    capacity := none
    facility_type := some "hospital"
    source := some "OSM"
    geom := (16, 48) }

/-- A geography distance function realizable on the ellipsoid for this
store: every row sits exactly at the query point, hence at distance 0. -/
def gdPoint : ℚ × ℚ → ℚ × ℚ → ℚ :=
  fun a b => if a = b then 0 else 1000

/-- Eleven distinct hospital rows, all at the query point. -/
def cexStore : List Row :=
  (List.range 11).map mkCexRow

/-! ## Helper lemmas about the upsert engine -/

theorem updateRow_keeps_identity (f : Feature) (r : Row) :
    sameIdentity (updateRow f r) r :=
  ⟨rfl, rfl, rfl, rfl, rfl⟩

theorem sameIdentity_stepRow (f : Feature) (r : Row) :
    sameIdentity (stepRow f r) r := by
  unfold stepRow
  split
  · exact updateRow_keeps_identity f r
  · exact ⟨rfl, rfl, rfl, rfl, rfl⟩

theorem keyMatchesRow_congr {r₁ r₂ : Row} (g : Feature)
    (h : sameIdentity r₁ r₂) : keyMatchesRow g r₁ = keyMatchesRow g r₂ := by
  obtain ⟨-, hn, hc, hf, -⟩ := h
  simp [keyMatchesRow, hn, hc, hf]

theorem keyMatchesRow_stepRow (g f : Feature) (r : Row) :
    keyMatchesRow g (stepRow f r) = keyMatchesRow g r :=
  keyMatchesRow_congr g (sameIdentity_stepRow f r)

theorem updateRow_updateRow (f : Feature) (r : Row) :
    updateRow f (updateRow f r) = updateRow f r := rfl

theorem updateRow_newRow (f : Feature) (n : Nat) :
    updateRow f (newRow n f) = newRow n f := rfl

theorem keyMatchesRow_newRow (f : Feature) (n : Nat) :
    keyMatchesRow f (newRow n f) = true := by
  simp [keyMatchesRow, newRow]

theorem hasKey_map_stepRow (s : List Row) (f g : Feature) :
    hasKey (s.map (stepRow g)) f = hasKey s f := by
  unfold hasKey
  rw [List.any_map]
  congr 1
  funext r
  exact keyMatchesRow_stepRow f g r

theorem hasKey_append (s t : List Row) (f : Feature) :
    hasKey (s ++ t) f = (hasKey s f || hasKey t f) := by
  simp [hasKey]

-- Inversion of a successful single-record upsert: the capacity cast
-- succeeded, and the store either got pointwise-updated (key conflict)
-- or extended by the fresh row (no conflict).
theorem upsertOne_ok_inv {s : List Row} {f : Feature} {s₁ : List Row}
    (h : upsertOne s f = .ok s₁) :
    (∃ v, castCapacity f.capacity = .ok v) ∧
    ((hasKey s f = true ∧ s₁ = s.map (stepRow f)) ∨
     (hasKey s f = false ∧ s₁ = s ++ [newRow (s.length + 1) f])) := by
  unfold upsertOne at h
  cases hc : castCapacity f.capacity with
  | error e => rw [hc] at h; exact absurd h (by simp)
  | ok v =>
    rw [hc] at h
    refine ⟨⟨v, rfl⟩, ?_⟩
    by_cases hk : hasKey s f = true
    · rw [if_pos hk] at h
      exact Or.inl ⟨hk, by injection h with h; exact h.symm⟩
    · rw [if_neg hk] at h
      exact Or.inr ⟨Bool.eq_false_iff.2 (fun hh => hk hh), by
        injection h with h; exact h.symm⟩

theorem hasKey_upsertOne_self {s : List Row} {f : Feature} {s₁ : List Row}
    (h : upsertOne s f = .ok s₁) : hasKey s₁ f = true := by
  rcases upsertOne_ok_inv h with ⟨-, ⟨hk, rfl⟩ | ⟨-, rfl⟩⟩
  · rw [hasKey_map_stepRow]; exact hk
  · rw [hasKey_append]
    simp [hasKey, keyMatchesRow_newRow]

theorem hasKey_upsertOne_mono {s : List Row} {f g : Feature} {s₁ : List Row}
    (h : upsertOne s f = .ok s₁) (hg : hasKey s g = true) :
    hasKey s₁ g = true := by
  rcases upsertOne_ok_inv h with ⟨-, ⟨-, rfl⟩ | ⟨-, rfl⟩⟩
  · rw [hasKey_map_stepRow]; exact hg
  · rw [hasKey_append, hg, Bool.true_or]

theorem upsertFacilities_cons_error {s : List Row} {f : Feature}
    {rest : List Feature} {e : String} (h : upsertOne s f = .error e) :
    upsertFacilities s (f :: rest) = (s, some e) := by
  unfold upsertFacilities
  rw [h]

theorem upsertFacilities_cons_ok {s s₁ : List Row} {f : Feature}
    {rest : List Feature} (h : upsertOne s f = .ok s₁) :
    upsertFacilities s (f :: rest) = upsertFacilities s₁ rest := by
  have hmatch : upsertFacilities s (f :: rest) =
      match upsertOne s f with
      | .ok s₂ => upsertFacilities s₂ rest
      | .error e => (s, some e) := rfl
  rw [hmatch, h]

-- A batch run that ends without an error had a successful capacity cast
-- for every record of the batch.
theorem upsertFacilities_success_casts :
    ∀ (bs : List Feature) (s t : List Row),
      upsertFacilities s bs = (t, none) →
      ∀ f ∈ bs, ∃ v, castCapacity f.capacity = .ok v := by
  intro bs
  induction bs with
  | nil => intro s t _ f hf; exact absurd hf (List.not_mem_nil f)
  | cons g rest ih =>
    intro s t h f hf
    cases ho : upsertOne s g with
    | error e =>
      rw [upsertFacilities_cons_error ho] at h
      exact absurd (congrArg Prod.snd h) (by simp)
    | ok s₁ =>
      rw [upsertFacilities_cons_ok ho] at h
      rcases List.mem_cons.1 hf with rfl | hf'
      · exact (upsertOne_ok_inv ho).1
      · exact ih s₁ t h f hf'

-- A key present in the store stays present through a batch run,
-- whatever the run's outcome.
theorem upsertFacilities_hasKey_mono :
    ∀ (bs : List Feature) (s : List Row) (g : Feature),
      hasKey s g = true → hasKey (upsertFacilities s bs).1 g = true := by
  intro bs
  induction bs with
  | nil => intro s g hg; exact hg
  | cons f rest ih =>
    intro s g hg
    cases ho : upsertOne s f with
    | error e => rw [upsertFacilities_cons_error ho]; exact hg
    | ok s₁ =>
      rw [upsertFacilities_cons_ok ho]
      exact ih s₁ g (hasKey_upsertOne_mono ho hg)

-- After a successful batch run, every record's key is present.
theorem upsertFacilities_success_hasKey :
    ∀ (bs : List Feature) (s t : List Row),
      upsertFacilities s bs = (t, none) →
      ∀ f ∈ bs, hasKey t f = true := by
  intro bs
  induction bs with
  | nil => intro s t _ f hf; exact absurd hf (List.not_mem_nil f)
  | cons g rest ih =>
    intro s t h f hf
    cases ho : upsertOne s g with
    | error e =>
      rw [upsertFacilities_cons_error ho] at h
      exact absurd (congrArg Prod.snd h) (by simp)
    | ok s₁ =>
      rw [upsertFacilities_cons_ok ho] at h
      rcases List.mem_cons.1 hf with rfl | hf'
      · have h₁ : hasKey s₁ f = true := hasKey_upsertOne_self ho
        have := upsertFacilities_hasKey_mono rest s₁ f h₁
        rw [h] at this
        exact this
      · exact ih s₁ t h f hf'

-- When every record of the batch casts cleanly and already has its key
-- in the store, the batch is a pure sequence of pointwise updates.
theorem upsertFacilities_all_keys_map :
    ∀ (bs : List Feature) (s : List Row),
      (∀ f ∈ bs, (∃ v, castCapacity f.capacity = .ok v) ∧ hasKey s f = true) →
      upsertFacilities s bs =
        (s.map (fun r => bs.foldl (fun r f => stepRow f r) r), none) := by
  intro bs
  induction bs with
  | nil =>
    intro s _
    simp [upsertFacilities]
  | cons f rest ih =>
    intro s h
    obtain ⟨⟨v, hv⟩, hk⟩ := h f (List.mem_cons_self f rest)
    have ho : upsertOne s f = .ok (s.map (stepRow f)) := by
      unfold upsertOne
      rw [hv, if_pos hk]
    rw [upsertFacilities_cons_ok ho]
    rw [ih (s.map (stepRow f)) ?_]
    · rw [List.map_map]
      rfl
    · intro g hg
      obtain ⟨hc, hk'⟩ := h g (List.mem_cons_of_mem f hg)
      exact ⟨hc, by rw [hasKey_map_stepRow]; exact hk'⟩

-- Folding the batch's per-row update over a row only looks at the row's
-- identity columns, provided some record of the batch matches its key.
theorem foldl_stepRow_congr :
    ∀ (bs : List Feature) (r₁ r₂ : Row),
      sameIdentity r₁ r₂ →
      (∃ g ∈ bs, keyMatchesRow g r₁ = true) →
      bs.foldl (fun r f => stepRow f r) r₁ =
        bs.foldl (fun r f => stepRow f r) r₂ := by
  intro bs
  induction bs with
  | nil =>
    rintro r₁ r₂ - ⟨g, hg, -⟩
    exact absurd hg (List.not_mem_nil g)
  | cons f rest ih =>
    rintro r₁ r₂ hsame ⟨g, hg, hkey⟩
    rw [List.foldl_cons, List.foldl_cons]
    by_cases hf : keyMatchesRow f r₁ = true
    · have hf₂ : keyMatchesRow f r₂ = true := by
        rw [← keyMatchesRow_congr f hsame]; exact hf
      have hupd : updateRow f r₁ = updateRow f r₂ := by
        obtain ⟨h1, h2, h3, h4, h5⟩ := hsame
        cases r₁; cases r₂
        simp only [updateRow]
        simp_all
      have hs₁ : stepRow f r₁ = updateRow f r₁ := by
        unfold stepRow; rw [if_pos hf]
      have hs₂ : stepRow f r₂ = updateRow f r₂ := by
        unfold stepRow; rw [if_pos hf₂]
      rw [hs₁, hs₂, hupd]
    · have hf₂ : ¬ keyMatchesRow f r₂ = true := by
        rw [← keyMatchesRow_congr f hsame]; exact hf
      have hs₁ : stepRow f r₁ = r₁ := by unfold stepRow; rw [if_neg hf]
      have hs₂ : stepRow f r₂ = r₂ := by unfold stepRow; rw [if_neg hf₂]
      rw [hs₁, hs₂]
      have hg' : g ∈ rest := by
        rcases List.mem_cons.1 hg with rfl | hg'
        · exact absurd hkey hf
        · exact hg'
      exact ih r₁ r₂ hsame ⟨g, hg', hkey⟩

-- A row of the final store that no record of the batch matches was
-- already in the initial store, untouched.
theorem upsertFacilities_no_match_mem :
    ∀ (bs : List Feature) (s t : List Row) (r : Row),
      upsertFacilities s bs = (t, none) → r ∈ t →
      (∀ g ∈ bs, keyMatchesRow g r = false) → r ∈ s := by
  intro bs
  induction bs with
  | nil =>
    intro s t r h hr _
    cases h
    exact hr
  | cons f rest ih =>
    intro s t r h hr hnone
    cases ho : upsertOne s f with
    | error e =>
      rw [upsertFacilities_cons_error ho] at h
      exact absurd (congrArg Prod.snd h) (by simp)
    | ok s₁ =>
      rw [upsertFacilities_cons_ok ho] at h
      have hr₁ : r ∈ s₁ :=
        ih s₁ t r h hr (fun g hg => hnone g (List.mem_cons_of_mem f hg))
      have hfr : keyMatchesRow f r = false := hnone f (List.mem_cons_self f rest)
      rcases upsertOne_ok_inv ho with ⟨-, ⟨-, rfl⟩ | ⟨hk, rfl⟩⟩
      · obtain ⟨r₀, hr₀, heq⟩ := List.mem_map.1 hr₁
        have : keyMatchesRow f r₀ = false := by
          rw [← keyMatchesRow_stepRow f f r₀, heq]; exact hfr
        have hid : stepRow f r₀ = r₀ := by
          unfold stepRow; rw [if_neg (by rw [this]; exact Bool.false_ne_true)]
        rw [← heq, hid]
        exact hr₀
      · rcases List.mem_append.1 hr₁ with hrs | hrnew
        · exact hrs
        · have : r = newRow (s.length + 1) f := List.mem_singleton.1 hrnew
          rw [this, keyMatchesRow_newRow] at hfr
          exact absurd hfr (by simp)

-- Any row of the store right after a successful single upsert whose key
-- matches the record already carries the record's mutable values.
theorem upsertOne_match_updated {s : List Row} {f : Feature} {s₁ : List Row}
    {r : Row} (h : upsertOne s f = .ok s₁) (hr : r ∈ s₁)
    (hm : keyMatchesRow f r = true) : updateRow f r = r := by
  rcases upsertOne_ok_inv h with ⟨-, ⟨-, rfl⟩ | ⟨hk, rfl⟩⟩
  · obtain ⟨r₀, hr₀, heq⟩ := List.mem_map.1 hr
    have hm₀ : keyMatchesRow f r₀ = true := by
      rw [← keyMatchesRow_stepRow f f r₀, heq]; exact hm
    have hst : stepRow f r₀ = updateRow f r₀ := by
      unfold stepRow; rw [if_pos hm₀]
    rw [← heq, hst]
    exact updateRow_updateRow f r₀
  · rcases List.mem_append.1 hr with hrs | hrnew
    · have : hasKey s f = true := List.any_eq_true.2 ⟨r, hrs, hm⟩
      rw [this] at hk
      exact absurd hk (by simp)
    · rw [List.mem_singleton.1 hrnew]
      exact updateRow_newRow f (s.length + 1)

-- Per-row fixpoint: every row of the final store of a successful batch
-- run is left unchanged by folding the batch's updates over it again.
theorem upsertFacilities_foldl_fixed :
    ∀ (bs : List Feature) (s t : List Row),
      upsertFacilities s bs = (t, none) →
      ∀ r ∈ t, bs.foldl (fun r f => stepRow f r) r = r := by
  intro bs
  induction bs with
  | nil => intro s t _ r _; rfl
  | cons f rest ih =>
    intro s t h r hr
    cases ho : upsertOne s f with
    | error e =>
      rw [upsertFacilities_cons_error ho] at h
      exact absurd (congrArg Prod.snd h) (by simp)
    | ok s₁ =>
      rw [upsertFacilities_cons_ok ho] at h
      have hrest : rest.foldl (fun r f => stepRow f r) r = r := ih s₁ t h r hr
      rw [List.foldl_cons]
      by_cases hf : keyMatchesRow f r = true
      · by_cases hex : ∃ g ∈ rest, keyMatchesRow g r = true
        · obtain ⟨g, hg, hkg⟩ := hex
          have hsame : sameIdentity (stepRow f r) r := sameIdentity_stepRow f r
          have hex' : ∃ g ∈ rest, keyMatchesRow g (stepRow f r) = true :=
            ⟨g, hg, by rw [keyMatchesRow_stepRow]; exact hkg⟩
          rw [foldl_stepRow_congr rest (stepRow f r) r hsame hex']
          exact hrest
        · push_neg at hex
          have hnomatch : ∀ g ∈ rest, keyMatchesRow g r = false := by
            intro g hg
            exact Bool.eq_false_iff.2 (hex g hg)
          have hr₁ : r ∈ s₁ := upsertFacilities_no_match_mem rest s₁ t r h hr hnomatch
          have hupd : updateRow f r = r := upsertOne_match_updated ho hr₁ hf
          have hstep : stepRow f r = r := by
            unfold stepRow; rw [if_pos hf]; exact hupd
          rw [hstep]
          exact hrest
      · have hstep : stepRow f r = r := by unfold stepRow; rw [if_neg hf]
        rw [hstep]
        exact hrest

-- `ORDER BY distance_m LIMIT n` yields a list sorted by the distance key.
theorem sorted_take_insertionSort (key : Row → ℚ) (l : List Row) (n : Nat) :
    List.Sorted (fun a b => key a ≤ key b)
      ((l.insertionSort (fun a b => key a ≤ key b)).take n) := by
  haveI : IsTotal Row (fun a b => key a ≤ key b) :=
    ⟨fun a b => le_total (key a) (key b)⟩
  haveI : IsTrans Row (fun a b => key a ≤ key b) :=
    ⟨fun a b c hab hbc => le_trans hab hbc⟩
  exact List.Pairwise.sublist (List.take_sublist n _)
    (List.sorted_insertionSort _ l)

/-! ## Claim theorems -/

/-- C1: For every batch of canonical Facility records, running the upsert
twice with the identical batch leaves the store in the same state as
running it once — the natural-key conflict resolution turns the second
run into pure per-row updates that rewrite each conflicting row with the
values it already carries, so no row is added and no field differs. -/
theorem upsert_idempotent :
    ∀ (s : List Row) (bs : List Feature) (t : List Row),
      upsertFacilities s bs = (t, none) →
      upsertFacilities t bs = (t, none) := by
  intro s bs t h
  have hcast := upsertFacilities_success_casts bs s t h
  have hkeys := upsertFacilities_success_hasKey bs s t h
  rw [upsertFacilities_all_keys_map bs t (fun f hf => ⟨hcast f hf, hkeys f hf⟩)]
  have hfix : ∀ r ∈ t, bs.foldl (fun r f => stepRow f r) r = r :=
    upsertFacilities_foldl_fixed bs s t h
  have hmap : t.map (fun r => bs.foldl (fun r f => stepRow f r) r) = t := by
    rw [List.map_congr_left hfix, List.map_id']
  rw [hmap]

/-- Witness for C1: a concrete two-record batch upserted into the empty
store, then upserted again onto the resulting store. -/
theorem upsert_idempotent_witness :
    upsertFacilities (upsertFacilities [] [exFeat, exFeatB]).1 [exFeat, exFeatB]
      = ((upsertFacilities [] [exFeat, exFeatB]).1, none) :=
  upsert_idempotent [] [exFeat, exFeatB]
    (upsertFacilities [] [exFeat, exFeatB]).1 (by decide)

/-- C2: When the incoming record's natural key already exists, the upsert
rewrites only the mutable columns (address, postcode, phone, website,
operator, emergency, capacity, geometry) from the incoming record, and
every column outside the update list — id, name, city, facility_type and
source — is left unchanged; no row is added. -/
theorem upsert_conflict_updates_only_mutable :
    ∀ (s : List Row) (f : Feature) (s₁ : List Row) (r : Row),
      upsertOne s f = .ok s₁ → r ∈ s → keyMatchesRow f r = true →
      s₁.length = s.length ∧
      updateRow f r ∈ s₁ ∧
      sameIdentity (updateRow f r) r ∧
      (updateRow f r).address = addressOf f ∧
      (updateRow f r).postcode = f.postcode ∧
      (updateRow f r).phone = f.phone ∧
      (updateRow f r).website = f.website ∧
      (updateRow f r).operator = f.operator ∧
      (updateRow f r).emergency = f.emergency ∧
      (updateRow f r).capacity = capValue f ∧
      (updateRow f r).geom = (f.lon, f.lat) := by
  intro s f s₁ r h hr hm
  have hk : hasKey s f = true := List.any_eq_true.2 ⟨r, hr, hm⟩
  rcases upsertOne_ok_inv h with ⟨-, ⟨-, rfl⟩ | ⟨hk', -⟩⟩
  · refine ⟨List.length_map s _, ?_, updateRow_keeps_identity f r,
      rfl, rfl, rfl, rfl, rfl, rfl, rfl, rfl⟩
    have hst : stepRow f r = updateRow f r := by
      unfold stepRow; rw [if_pos hm]
    rw [← hst]
    exact List.mem_map_of_mem (stepRow f) hr
  · rw [hk] at hk'
    exact absurd hk' (by simp)

/-- Witness for C2: re-fetch of `Klinik A` with changed phone, capacity
and longitude against the store holding its previously inserted row. -/
theorem upsert_conflict_updates_only_mutable_witness :
    ([updateRow exFeat2 exRow] : List Row).length = ([exRow] : List Row).length ∧
    updateRow exFeat2 exRow ∈ ([updateRow exFeat2 exRow] : List Row) ∧
    sameIdentity (updateRow exFeat2 exRow) exRow ∧
    (updateRow exFeat2 exRow).address = addressOf exFeat2 ∧
    (updateRow exFeat2 exRow).postcode = exFeat2.postcode ∧
    (updateRow exFeat2 exRow).phone = exFeat2.phone ∧
    (updateRow exFeat2 exRow).website = exFeat2.website ∧
    (updateRow exFeat2 exRow).operator = exFeat2.operator ∧
    (updateRow exFeat2 exRow).emergency = exFeat2.emergency ∧
    (updateRow exFeat2 exRow).capacity = capValue exFeat2 ∧
    (updateRow exFeat2 exRow).geom = (exFeat2.lon, exFeat2.lat) :=
  upsert_conflict_updates_only_mutable [exRow] exFeat2
    [updateRow exFeat2 exRow] exRow (by decide) (by decide) (by decide)

/-- Counterexample to C3 as stated: with the batch `[Ambulanz D
(capacity "n/a"), Klinik A]` the run does not drop the bad record and
continue — the cast error aborts the whole batch, so the store stays
empty and `Klinik A` is never upserted. -/
theorem capacity_na_does_not_continue :
    (upsertFacilities [] [exCapNA, exFeat]).1 = [] ∧
    (upsertFacilities [] [exCapNA, exFeat]).2 =
      some "invalid input syntax for type integer: n/a" := by
  constructor
  · decide
  · decide

/-- C3 (amended): capacity `""` is stored as SQL NULL and `"120"` as the
integer 120; a non-empty non-numeric capacity such as `"n/a"` makes the
`::int` cast fail, and — there being no per-record error handling — that
error aborts the run: the store is left at its state before the failing
record and the remaining records are not processed. -/
theorem capacity_coercion_amended :
    castCapacity (some "") = .ok none ∧
    castCapacity (some "120") = .ok (some 120) ∧
    (∀ (s : List Row) (f : Feature) (rest : List Feature),
      f.capacity = some "n/a" →
      upsertFacilities s (f :: rest) =
        (s, some "invalid input syntax for type integer: n/a")) := by
  refine ⟨by decide, by decide, ?_⟩
  intro s f rest hcap
  have herr : upsertOne s f = .error "invalid input syntax for type integer: n/a" := by
    have hc : castCapacity (some "n/a") =
        .error "invalid input syntax for type integer: n/a" := by decide
    unfold upsertOne
    rw [hcap, hc]
  exact upsertFacilities_cons_error herr

/-- Witness for C3 (amended) on the singleton batch `[Ambulanz D]`. -/
theorem capacity_coercion_amended_witness :
    upsertFacilities [exRow] [exCapNA] =
      ([exRow], some "invalid input syntax for type integer: n/a") :=
  capacity_coercion_amended.2.2 [exRow] exCapNA [] (by decide)

/-- Counterexample to C4 as stated: in the batch `[Klinik A, Ambulanz D
(capacity "n/a"), Praxis B]` the middle record's failure aborts the
batch — only the first record's row exists afterwards, the key of
`Praxis B` is absent from the store (the remaining records were not
processed), and the only failure signal is the escaped error, not a
report. -/
theorem single_failure_aborts_batch :
    (upsertFacilities [] [exFeat, exCapNA, exFeatB]).2 =
      some "invalid input syntax for type integer: n/a" ∧
    (upsertFacilities [] [exFeat, exCapNA, exFeatB]).1.length = 1 ∧
    hasKey (upsertFacilities [] [exFeat, exCapNA, exFeatB]).1 exFeatB = false := by
  refine ⟨by decide, by decide, by decide⟩

/-- C4 (amended): the batch loop has no per-record error handling: a
record whose statement fails stops the loop with that error — records
upserted before the failure stay committed, the failing record and all
later ones are not applied; a record whose statement succeeds hands the
updated store to the rest of the batch. -/
theorem upsert_abort_semantics :
    (∀ (s : List Row) (f : Feature) (rest : List Feature) (e : String),
       upsertOne s f = .error e →
       upsertFacilities s (f :: rest) = (s, some e)) ∧
    (∀ (s s₁ : List Row) (f : Feature) (rest : List Feature),
       upsertOne s f = .ok s₁ →
       upsertFacilities s (f :: rest) = upsertFacilities s₁ rest) := by
  constructor
  · intro s f rest e h
    exact upsertFacilities_cons_error h
  · intro s s₁ f rest h
    exact upsertFacilities_cons_ok h

/-- Witness for C4 (amended): the failing record `Ambulanz D` with a
non-empty remainder aborts immediately from the store `[exRow]`. -/
theorem upsert_abort_semantics_witness :
    upsertFacilities [exRow] [exCapNA, exFeatB] =
      ([exRow], some "invalid input syntax for type integer: n/a") :=
  upsert_abort_semantics.1 [exRow] exCapNA [exFeatB]
    "invalid input syntax for type integer: n/a" (by decide)

/-- C5 is a code bug: for an element with no address tags the feature
dict stores `None` under `street`/`housenumber`; `props.get(k, '')`
returns that stored `None` (the `''` default only applies to an absent
key), and the f-string renders it as the text `"None"`.  The stored
address is `"None None"` (both halves missing) or `"None 12"` (street
missing), not the intended empty/partial string — the `"None"` literal
is exactly the placeholder the claim rules out. -/
theorem address_renders_none_placeholder :
    (normalizeElement elemNoAddr).map addressOf = some "None None" ∧
    (normalizeElement elemHalfAddr).map addressOf = some "None 12" := by
  constructor
  · decide
  · decide

/-- C6: the mirror loop returns the first successful mirror's element
list immediately, having recorded exactly one failure per failed mirror
before it (no retry of the same mirror, no further mirrors attempted);
when every mirror fails the fetch raises, and the ingestion run is a
hard stop — the store is never touched. -/
theorem mirror_failover :
    (∀ (pre post : List (Option (List Element))) (d : List Element),
       (∀ a ∈ pre, a = none) →
       runMirrors (pre ++ some d :: post) = .ok (d, pre.length)) ∧
    (∀ (attempts : List (Option (List Element))) (store : List Row),
       (∀ a ∈ attempts, a = none) →
       ingestRun attempts store =
         .error "All Overpass servers failed. Try again later.") := by
  have haux : ∀ (pre : List (Option (List Element))) (post :
      List (Option (List Element))) (d : List Element) (n : Nat),
      (∀ a ∈ pre, a = none) →
      runMirrorsAux (pre ++ some d :: post) n = .ok (d, n + pre.length) := by
    intro pre
    induction pre with
    | nil => intro post d n _; rfl
    | cons a pre' ih =>
      intro post d n hall
      have ha : a = none := hall a (List.mem_cons_self a pre')
      subst ha
      show runMirrorsAux (pre' ++ some d :: post) (n + 1) = .ok (d, n + (pre'.length + 1))
      rw [ih post d (n + 1) (fun x hx => hall x (List.mem_cons_of_mem none hx))]
      congr 1
      congr 1
      omega
  have hfail : ∀ (attempts : List (Option (List Element))) (n : Nat),
      (∀ a ∈ attempts, a = none) →
      runMirrorsAux attempts n =
        .error "All Overpass servers failed. Try again later." := by
    intro attempts
    induction attempts with
    | nil => intro n _; rfl
    | cons a rest ih =>
      intro n hall
      have ha : a = none := hall a (List.mem_cons_self a rest)
      subst ha
      exact ih (n + 1) (fun x hx => hall x (List.mem_cons_of_mem none hx))
  constructor
  · intro pre post d hall
    unfold runMirrors
    rw [haux pre post d 0 hall]
    rw [Nat.zero_add]
  · intro attempts store hall
    unfold ingestRun runMirrors
    rw [hfail attempts 0 hall]

/-- Witness for C6: three mirrors, the first two fail, the third
succeeds — its data is returned with two recorded failures; and the
all-fail run errors without touching the store. -/
theorem mirror_failover_witness :
    runMirrors [none, none, some [elemNoAddr]] = .ok ([elemNoAddr], 2) ∧
    ingestRun [none, none, none] [exRow] =
      .error "All Overpass servers failed. Try again later." :=
  ⟨mirror_failover.1 [none, none] [] [elemNoAddr] (by decide),
   mirror_failover.2 [none, none, none] [exRow] (by decide)⟩

/-- Counterexample to C9 as stated: the hospital-only pipeline
(`fetch_hospitals.py`) defaults a missing name to `"Unknown hospital"`,
not to `"Unknown facility"`. -/
theorem hospital_pipeline_name_placeholder :
    (normalizeHospitalElement elemNoName).map HospitalFeature.name =
      some "Unknown hospital" ∧
    (normalizeHospitalElement elemNoName).map HospitalFeature.name ≠
      some "Unknown facility" := by
  constructor
  · decide
  · decide

/-- C9 (amended): for a source element with coordinates whose tags lack
a name, the multi-type pipeline normalizes the name to the placeholder
`"Unknown facility"`, while the single-type hospitals pipeline uses the
placeholder `"Unknown hospital"`. -/
theorem name_placeholder_amended :
    ∀ (e : Element) (la lo : ℚ),
      e.lat = some la → e.lon = some lo →
      tagsGet e.tags "name" = none →
      (normalizeElement e).map Feature.name = some "Unknown facility" ∧
      (normalizeHospitalElement e).map HospitalFeature.name =
        some "Unknown hospital" := by
  intro e la lo hla hlo hname
  obtain ⟨elat, elon, etags⟩ := e
  simp only at hla hlo hname
  subst hla
  subst hlo
  constructor
  · simp [normalizeElement, tagsGetD, hname]
  · simp [normalizeHospitalElement, tagsGetD, hname]

/-- Witness for C9 (amended) at a concrete nameless element. -/
theorem name_placeholder_amended_witness :
    (normalizeElement elemNoName).map Feature.name = some "Unknown facility" ∧
    (normalizeHospitalElement elemNoName).map HospitalFeature.name =
      some "Unknown hospital" :=
  name_placeholder_amended elemNoName 47 15 (by decide) (by decide) (by decide)

/-- C10: at `/facilities/nearest`, an empty-string `facility_type`
behaves exactly like omitting the parameter — Python truthiness sends
both to the unfiltered query, so the result is over all facility types
rather than empty. -/
theorem empty_type_filter_is_no_filter :
    ∀ (gd : ℚ × ℚ → ℚ × ℚ → ℚ) (store : List Row) (qlon qlat dist : ℚ),
      nearestFacilities gd store qlon qlat dist (some "") =
        nearestFacilities gd store qlon qlat dist none := by
  intro gd store qlon qlat dist
  rfl

/-- C7: every nearest query returns a sequence ordered by non-decreasing
geography distance from the query point, capped at 10 results for the
hospitals endpoint and at 20 for the facilities endpoint (any type
filter). -/
theorem nearest_sorted_and_capped :
    ∀ (gd : ℚ × ℚ → ℚ × ℚ → ℚ) (store : List Row) (qlon qlat dist : ℚ)
      (ft : Option String),
      (nearestHospitals gd store qlon qlat dist).length ≤ 10 ∧
      List.Sorted (fun a b => distTo gd qlon qlat a ≤ distTo gd qlon qlat b)
        (nearestHospitals gd store qlon qlat dist) ∧
      (nearestFacilities gd store qlon qlat dist ft).length ≤ 20 ∧
      List.Sorted (fun a b => distTo gd qlon qlat a ≤ distTo gd qlon qlat b)
        (nearestFacilities gd store qlon qlat dist ft) := by
  intro gd store qlon qlat dist ft
  refine ⟨?_, ?_, ?_⟩
  · simp only [nearestHospitals]
    exact List.length_take_le _ _
  · simp only [nearestHospitals]
    exact sorted_take_insertionSort _ _ _
  · rcases ft with _ | t
    · exact ⟨by simp only [nearestFacilities]; exact List.length_take_le _ _,
        by simp only [nearestFacilities]; exact sorted_take_insertionSort _ _ _⟩
    · simp only [nearestFacilities]
      split
      · exact ⟨List.length_take_le _ _, sorted_take_insertionSort _ _ _⟩
      · exact ⟨List.length_take_le _ _, sorted_take_insertionSort _ _ _⟩

/-- Counterexample to C8 as stated: eleven distinct hospital rows all at
geography distance 0 from the query point, radius 5 — the row `H10` is
within the radius (`dist ≥ d`) yet excluded from the nearest query's
result, because `LIMIT 10` truncates the ordered sequence. -/
theorem radius_within_not_always_included :
    mkCexRow 10 ∈ cexStore ∧
    distTo gdPoint 16 48 (mkCexRow 10) = 0 ∧
    ((0 : ℚ) ≤ 5) ∧
    mkCexRow 10 ∉ nearestHospitals gdPoint cexStore 16 48 5 := by
  refine ⟨by decide, by decide, by decide, by decide⟩

/-- C8 (amended): a facility at distance strictly beyond the radius is
always excluded; one within the radius (boundary inclusive, `≤`) is
included provided the matching rows do not exceed the result cap — 10
for the hospitals endpoint, 20 for the facilities endpoint with the
type filter omitted, empty, or a non-empty type the facility carries;
and a query matching zero facilities returns the empty sequence, not an
error, on both endpoints. -/
theorem radius_filter_amended :
    (∀ (gd : ℚ × ℚ → ℚ × ℚ → ℚ) (store : List Row) (qlon qlat dist : ℚ)
       (r : Row), r ∈ nearestHospitals gd store qlon qlat dist →
       distTo gd qlon qlat r ≤ dist) ∧
    (∀ (gd : ℚ × ℚ → ℚ × ℚ → ℚ) (store : List Row) (qlon qlat dist : ℚ)
       (ft : Option String) (r : Row),
       r ∈ nearestFacilities gd store qlon qlat dist ft →
       distTo gd qlon qlat r ≤ dist) ∧
    (∀ (gd : ℚ × ℚ → ℚ × ℚ → ℚ) (store : List Row) (qlon qlat dist : ℚ)
       (r : Row), r ∈ store → distTo gd qlon qlat r ≤ dist →
       (store.filter (fun x => decide (distTo gd qlon qlat x ≤ dist))).length ≤ 10 →
       r ∈ nearestHospitals gd store qlon qlat dist) ∧
    (∀ (gd : ℚ × ℚ → ℚ × ℚ → ℚ) (store : List Row) (qlon qlat dist : ℚ),
       (∀ r ∈ store, ¬ distTo gd qlon qlat r ≤ dist) →
       nearestHospitals gd store qlon qlat dist = []) ∧
    (∀ (gd : ℚ × ℚ → ℚ × ℚ → ℚ) (store : List Row) (qlon qlat dist : ℚ)
       (ft : Option String),
       (∀ r ∈ store, ¬ distTo gd qlon qlat r ≤ dist) →
       nearestFacilities gd store qlon qlat dist ft = []) ∧
    (∀ (gd : ℚ × ℚ → ℚ × ℚ → ℚ) (store : List Row) (qlon qlat dist : ℚ)
       (r : Row), r ∈ store → distTo gd qlon qlat r ≤ dist →
       (store.filter (fun x => decide (distTo gd qlon qlat x ≤ dist))).length ≤ 20 →
       r ∈ nearestFacilities gd store qlon qlat dist none) ∧
    (∀ (gd : ℚ × ℚ → ℚ × ℚ → ℚ) (store : List Row) (qlon qlat dist : ℚ)
       (r : Row), r ∈ store → distTo gd qlon qlat r ≤ dist →
       (store.filter (fun x => decide (distTo gd qlon qlat x ≤ dist))).length ≤ 20 →
       r ∈ nearestFacilities gd store qlon qlat dist (some "")) ∧
    (∀ (gd : ℚ × ℚ → ℚ × ℚ → ℚ) (store : List Row) (qlon qlat dist : ℚ)
       (t : String) (r : Row), t ≠ "" →
       r ∈ store → r.facility_type = some t → distTo gd qlon qlat r ≤ dist →
       (store.filter (fun x => x.facility_type == some t &&
          decide (distTo gd qlon qlat x ≤ dist))).length ≤ 20 →
       r ∈ nearestFacilities gd store qlon qlat dist (some t)) := by
  refine ⟨?_, ?_, ?_, ?_, ?_, ?_, ?_, ?_⟩
  · intro gd store qlon qlat dist r hr
    simp only [nearestHospitals] at hr
    have h1 := List.mem_of_mem_take hr
    have h2 := (List.perm_insertionSort _ _).mem_iff.1 h1
    exact of_decide_eq_true (List.mem_filter.1 h2).2
  · intro gd store qlon qlat dist ft r hr
    rcases ft with _ | t
    · simp only [nearestFacilities] at hr
      have h1 := List.mem_of_mem_take hr
      have h2 := (List.perm_insertionSort _ _).mem_iff.1 h1
      exact of_decide_eq_true (List.mem_filter.1 h2).2
    · simp only [nearestFacilities] at hr
      split at hr
      · have h1 := List.mem_of_mem_take hr
        have h2 := (List.perm_insertionSort _ _).mem_iff.1 h1
        exact of_decide_eq_true (List.mem_filter.1 h2).2
      · have h1 := List.mem_of_mem_take hr
        have h2 := (List.perm_insertionSort _ _).mem_iff.1 h1
        have hb := (List.mem_filter.1 h2).2
        rw [Bool.and_eq_true] at hb
        exact of_decide_eq_true hb.2
  · intro gd store qlon qlat dist r hr hd hlen
    have hrf : r ∈ store.filter
        (fun x => decide (distTo gd qlon qlat x ≤ dist)) :=
      List.mem_filter.2 ⟨hr, decide_eq_true hd⟩
    have hperm := List.perm_insertionSort
      (fun a b => distTo gd qlon qlat a ≤ distTo gd qlon qlat b)
      (store.filter (fun x => decide (distTo gd qlon qlat x ≤ dist)))
    have hlen' : ((store.filter
        (fun x => decide (distTo gd qlon qlat x ≤ dist))).insertionSort
        (fun a b => distTo gd qlon qlat a ≤ distTo gd qlon qlat b)).length ≤ 10 := by
      rw [hperm.length_eq]
      exact hlen
    simp only [nearestHospitals]
    rw [List.take_of_length_le hlen']
    exact hperm.mem_iff.2 hrf
  · intro gd store qlon qlat dist h
    have hnil : store.filter (fun x => decide (distTo gd qlon qlat x ≤ dist)) = [] :=
      List.filter_eq_nil_iff.2 (fun a ha => by simp [h a ha])
    simp only [nearestHospitals]
    rw [hnil]
    rfl
  · intro gd store qlon qlat dist ft h
    rcases ft with _ | t
    · have hnil : store.filter (fun x => decide (distTo gd qlon qlat x ≤ dist)) = [] :=
        List.filter_eq_nil_iff.2 (fun a ha => by simp [h a ha])
      simp only [nearestFacilities]
      rw [hnil]
      rfl
    · simp only [nearestFacilities]
      split
      · have hnil : store.filter (fun x => decide (distTo gd qlon qlat x ≤ dist)) = [] :=
          List.filter_eq_nil_iff.2 (fun a ha => by simp [h a ha])
        rw [hnil]
        rfl
      · have hnil : store.filter
            (fun x => x.facility_type == some t &&
              decide (distTo gd qlon qlat x ≤ dist)) = [] :=
          List.filter_eq_nil_iff.2 (fun a ha => by simp [h a ha])
        rw [hnil]
        rfl
  · intro gd store qlon qlat dist r hr hd hlen
    have hrf : r ∈ store.filter
        (fun x => decide (distTo gd qlon qlat x ≤ dist)) :=
      List.mem_filter.2 ⟨hr, decide_eq_true hd⟩
    have hperm := List.perm_insertionSort
      (fun a b => distTo gd qlon qlat a ≤ distTo gd qlon qlat b)
      (store.filter (fun x => decide (distTo gd qlon qlat x ≤ dist)))
    have hlen' : ((store.filter
        (fun x => decide (distTo gd qlon qlat x ≤ dist))).insertionSort
        (fun a b => distTo gd qlon qlat a ≤ distTo gd qlon qlat b)).length ≤ 20 := by
      rw [hperm.length_eq]
      exact hlen
    simp only [nearestFacilities]
    rw [List.take_of_length_le hlen']
    exact hperm.mem_iff.2 hrf
  · intro gd store qlon qlat dist r hr hd hlen
    have hrf : r ∈ store.filter
        (fun x => decide (distTo gd qlon qlat x ≤ dist)) :=
      List.mem_filter.2 ⟨hr, decide_eq_true hd⟩
    have hperm := List.perm_insertionSort
      (fun a b => distTo gd qlon qlat a ≤ distTo gd qlon qlat b)
      (store.filter (fun x => decide (distTo gd qlon qlat x ≤ dist)))
    have hlen' : ((store.filter
        (fun x => decide (distTo gd qlon qlat x ≤ dist))).insertionSort
        (fun a b => distTo gd qlon qlat a ≤ distTo gd qlon qlat b)).length ≤ 20 := by
      rw [hperm.length_eq]
      exact hlen
    simp only [nearestFacilities]
    split
    · rw [List.take_of_length_le hlen']
      exact hperm.mem_iff.2 hrf
    · rename_i hne
      exact absurd trivial hne
  · intro gd store qlon qlat dist t r ht hr hft hd hlen
    have hrf : r ∈ store.filter
        (fun x => x.facility_type == some t &&
          decide (distTo gd qlon qlat x ≤ dist)) :=
      List.mem_filter.2 ⟨hr, by
        rw [Bool.and_eq_true]
        exact ⟨by simp [hft], decide_eq_true hd⟩⟩
    have hperm := List.perm_insertionSort
      (fun a b => distTo gd qlon qlat a ≤ distTo gd qlon qlat b)
      (store.filter (fun x => x.facility_type == some t &&
        decide (distTo gd qlon qlat x ≤ dist)))
    have hlen' : ((store.filter
        (fun x => x.facility_type == some t &&
          decide (distTo gd qlon qlat x ≤ dist))).insertionSort
        (fun a b => distTo gd qlon qlat a ≤ distTo gd qlon qlat b)).length ≤ 20 := by
      rw [hperm.length_eq]
      exact hlen
    simp only [nearestFacilities]
    rw [if_neg ht]
    rw [List.take_of_length_le hlen']
    exact hperm.mem_iff.2 hrf

/-- Witness for C8 (amended): a single row at the query point, radius 5 —
it is within the radius, the hospitals query includes it, and the
facilities query includes it under its matching type filter. -/
theorem radius_filter_amended_witness :
    mkCexRow 1 ∈ nearestHospitals gdPoint [mkCexRow 1] 16 48 5 ∧
    mkCexRow 1 ∈ nearestFacilities gdPoint [mkCexRow 1] 16 48 5 (some "hospital") :=
  ⟨radius_filter_amended.2.2.1 gdPoint [mkCexRow 1] 16 48 5 (mkCexRow 1)
     (by decide) (by decide) (by decide),
   radius_filter_amended.2.2.2.2.2.2.2 gdPoint [mkCexRow 1] 16 48 5 "hospital"
     (mkCexRow 1) (by decide) (by decide) (by decide) (by decide) (by decide)⟩

end CityAccess
